import Mathlib

/-!
Verification of the kiam metadata agent/server core against its source.

Strings from the Go source are modelled as lists of characters (`Str`);
machine-level HTTP plumbing (gorilla mux, net/http writers) is embedded as
plain data: a response is a status code, a content type and a body.  Durations
are natural numbers of milliseconds.
-/

namespace Kiam

/-- Go strings are modelled as lists of characters. -/
abbrev Str := List Char

/-- Convert a Lean string literal to the character-list model. -/
def str (s : String) : Str := s.data

/-- strings.Split(addr, ":") — splitting on the single-character separator,
exactly as Go: splitting the empty string yields one empty field, and
adjacent separators yield empty fields. -/
def splitOnColon : Str → List Str
  | [] => [[]]
  | c :: rest =>
    let r := splitOnColon rest
    if c = ':' then [] :: r
    else
      match r with
      | [] => [[c]]
      | h :: t => (c :: h) :: t

/-- strings.Join(parts, ":"). -/
def joinColon : List Str → Str
  | [] => []
  | [p] => p
  | p :: q :: ps => p ++ ':' :: joinColon (q :: ps)

/-- func ParseClientIP(addr string) (string, error) — from the metadata
server source: split on ":", reject fewer than two fields, otherwise join
all fields but the last with ":". -/
def ParseClientIP (addr : Str) : Except Str Str :=
  let parts := splitOnColon addr
  if parts.length < 2 then
    .error (str "incorrect format, expected ip:port, was: " ++ addr)
  else
    .ok (joinColon (parts.take (parts.length - 1)))

theorem splitOnColon_ne_nil (l : Str) : splitOnColon l ≠ [] := by
  cases l with
  | nil => simp [splitOnColon]
  | cons c rest =>
    simp only [splitOnColon]
    split
    · simp
    · cases h : splitOnColon rest <;> simp

theorem splitOnColon_of_no_colon {l : Str} (h : ':' ∉ l) : splitOnColon l = [l] := by
  induction l with
  | nil => rfl
  | cons c rest ih =>
    have hc : ¬ c = ':' := fun hc => h (hc ▸ List.mem_cons_self c rest)
    have hr : ':' ∉ rest := fun hm => h (List.mem_cons_of_mem c hm)
    simp [splitOnColon, hc, ih hr]

theorem splitOnColon_append_colon {t : Str} (s : Str) (h : ':' ∉ t) :
    splitOnColon (s ++ ':' :: t) = splitOnColon s ++ [t] := by
  induction s with
  | nil => simp [splitOnColon, splitOnColon_of_no_colon h]
  | cons c s ih =>
    by_cases hc : c = ':'
    · subst hc
      simp [splitOnColon, ih]
    · have hne := splitOnColon_ne_nil s
      cases hs : splitOnColon s with
      | nil => exact absurd hs hne
      | cons p ps =>
        simp only [List.cons_append, splitOnColon, hs, ih, hc, if_neg]
        simp [hs] at ih
        simp [ih]

theorem joinColon_splitOnColon (l : Str) : joinColon (splitOnColon l) = l := by
  induction l with
  | nil => rfl
  | cons c rest ih =>
    by_cases hc : c = ':'
    · subst hc
      have hne := splitOnColon_ne_nil rest
      cases hs : splitOnColon rest with
      | nil => exact absurd hs hne
      | cons p ps =>
        simp only [splitOnColon, if_pos rfl, hs, joinColon]
        have : joinColon (p :: ps) = rest := by rw [← hs, ih]
        simp [this]
    · have hne := splitOnColon_ne_nil rest
      cases hs : splitOnColon rest with
      | nil => exact absurd hs hne
      | cons p ps =>
        simp only [splitOnColon, hs, if_neg hc]
        cases ps with
        | nil =>
          simp only [joinColon]
          have : joinColon [p] = rest := by rw [← hs, ih]
          simpa [joinColon] using this
        | cons q qs =>
          simp only [joinColon]
          have : joinColon (p :: q :: qs) = rest := by rw [← hs, ih]
          simp only [joinColon] at this
          simp [this]

theorem ParseClientIP_ok {t : Str} (s : Str) (h : ':' ∉ t) :
    ParseClientIP (s ++ ':' :: t) = .ok s := by
  have hsplit := splitOnColon_append_colon s h
  have hne := splitOnColon_ne_nil s
  have hlen : (splitOnColon (s ++ ':' :: t)).length = (splitOnColon s).length + 1 := by
    simp [hsplit]
  have hpos : 1 ≤ (splitOnColon s).length := Nat.one_le_iff_ne_zero.mpr (by
    simpa [List.length_eq_zero] using hne)
  have hnotlt : ¬ (splitOnColon (s ++ ':' :: t)).length < 2 := by omega
  have htake : (splitOnColon (s ++ ':' :: t)).take
      ((splitOnColon (s ++ ':' :: t)).length - 1) = splitOnColon s := by
    rw [hsplit]
    have hl : (splitOnColon s ++ [t]).length - 1 = (splitOnColon s).length := by simp
    rw [hl, List.take_left]
  simp only [ParseClientIP, if_neg hnotlt, htake, joinColon_splitOnColon]

theorem ParseClientIP_error {addr : Str} (h : ':' ∉ addr) :
    ParseClientIP addr =
      .error (str "incorrect format, expected ip:port, was: " ++ addr) := by
  simp [ParseClientIP, splitOnColon_of_no_colon h]

theorem last_colon_split {addr : Str} (h : ':' ∈ addr) :
    ∃ s t, addr = s ++ ':' :: t ∧ ':' ∉ t := by
  induction addr with
  | nil => simp at h
  | cons c rest ih =>
    by_cases hr : ':' ∈ rest
    · obtain ⟨s, t, hst, hnt⟩ := ih hr
      exact ⟨c :: s, t, by simp [hst], hnt⟩
    · have hc : c = ':' := by
        rcases List.mem_cons.mp h with h1 | h2
        · exact h1.symm
        · exact absurd h2 hr
      exact ⟨[], rest, by simp [hc], hr⟩

/-- type ServerConfig — from the metadata server source.  MaxElapsedTime is
held in milliseconds. -/
structure ServerConfig where
  listenPort : Nat
  metadataEndpoint : Str
  allowIPQuery : Bool
  maxElapsedTime : Nat

/-- func NewConfig(port int) *ServerConfig — MetadataEndpoint defaults to the
cloud endpoint, AllowIPQuery to false and MaxElapsedTime to 10 seconds. -/
def NewConfig (port : Nat) : ServerConfig :=
  { metadataEndpoint := str "http://169.254.169.254"
    listenPort := port
    allowIPQuery := false
    maxElapsedTime := 10000 }

/-- type Server — the metadata agent HTTP server; collaborators (role finder,
credentials provider) are passed to the handlers as functions. -/
structure Server where
  cfg : ServerConfig

/-- An incoming HTTP request as the handlers see it: RemoteAddr, the value of
the "ip" form parameter (empty when absent, as Go Form.Get returns "") and
the mux path variable "role". -/
structure HttpRequest where
  remoteAddr : Str
  ipQueryParam : Str
  roleVar : Str

/-- func (s *Server) clientIP — the source reads
"if s.cfg.AllowIPQuery { }" with an empty body (a dead branch) and then
unconditionally parses RemoteAddr, so the ip query parameter is ignored. -/
def Server.clientIP (_ : Server) (req : HttpRequest) : Except Str Str :=
  ParseClientIP req.remoteAddr

/-- func buildClientIP(config *ServerConfig) — returns a resolver which, when
AllowIPQuery is set and the "ip" form value is non-empty, returns that value,
and otherwise parses RemoteAddr. -/
def buildClientIP (cfg : ServerConfig) (req : HttpRequest) : Except Str Str :=
  if cfg.allowIPQuery then
    if req.ipQueryParam = [] then ParseClientIP req.remoteAddr
    else .ok req.ipQueryParam
  else ParseClientIP req.remoteAddr

/-- sts.Credentials — the credential record; field names follow the Go
struct (Code, Type, AccessKeyId, SecretAccessKey, Token, Expiration,
LastUpdated), whose JSON encoding is fixed by the repository test. -/
structure Credentials where
  code : Str
  credType : Str
  accessKeyId : Str
  secretAccessKey : Str
  credToken : Str
  expiration : Str
  lastUpdated : Str
deriving DecidableEq

/-- Lowercase hexadecimal digit, as package json renders escape sequences. -/
def hexDigit (n : Nat) : Char :=
  if n < 10 then Char.ofNat ('0'.toNat + n) else Char.ofNat ('a'.toNat + (n - 10))

/-- JSON string escaping exactly as the default encoding/json encoder
performs it: quote and backslash are backslash-escaped; the HTML-sensitive
characters of less-than, greater-than and ampersand become lowercase
unicode escapes; newline, carriage return and tab use their short forms;
remaining control characters become unicode escapes, as do the line and
paragraph separators U+2028 and U+2029; every other character is copied. -/
def escJson : Str → Str
  | [] => []
  | c :: rest =>
    if c = '"' then '\\' :: '"' :: escJson rest
    else if c = '\\' then '\\' :: '\\' :: escJson rest
    else if c = '<' ∨ c = '>' ∨ c = '&' then
      '\\' :: 'u' :: '0' :: '0' :: hexDigit (c.toNat / 16) :: hexDigit (c.toNat % 16)
        :: escJson rest
    else if c = '\n' then '\\' :: 'n' :: escJson rest
    else if c = '\r' then '\\' :: 'r' :: escJson rest
    else if c = '\t' then '\\' :: 't' :: escJson rest
    else if c.toNat < 32 then
      '\\' :: 'u' :: '0' :: '0' :: hexDigit (c.toNat / 16) :: hexDigit (c.toNat % 16)
        :: escJson rest
    else if c.toNat = 8232 ∨ c.toNat = 8233 then
      '\\' :: 'u' :: '2' :: '0' :: '2' :: hexDigit (c.toNat % 16) :: escJson rest
    else c :: escJson rest

/-- One JSON object member, rendered as "name":"value" with the value
escaped. -/
def jfield (name val : Str) : Str :=
  ('"' :: name ++ str "\":") ++ ('"' :: escJson val ++ ['"'])

/-- json.NewEncoder(w).Encode(credentials) — the compact JSON object in Go
struct-field order, followed by the newline the encoder appends. -/
def jsonEncodeCredentials (c : Credentials) : Str :=
  str "\x7b" ++ jfield (str "Code") c.code ++ str ","
    ++ jfield (str "Type") c.credType ++ str ","
    ++ jfield (str "AccessKeyId") c.accessKeyId ++ str ","
    ++ jfield (str "SecretAccessKey") c.secretAccessKey ++ str ","
    ++ jfield (str "Token") c.credToken ++ str ","
    ++ jfield (str "Expiration") c.expiration ++ str ","
    ++ jfield (str "LastUpdated") c.lastUpdated ++ str "\x7d\n"

/-- Modelled from the spec: EmptyRoleError is declared elsewhere in the
metadata package (not under src/); it signals a pod without a role
annotation.  No claim depends on its message text. -/
def EmptyRoleError : Str := str "no role assigned to pod"

/-- Content-Type written by http.Error for every error response. -/
def textPlain : Str := str "text/plain; charset=utf-8"

/-- Content-Type the credentials handler tries to set on success. -/
def applicationJson : Str := str "application/json"

/-- The slice of the net/http ResponseWriter contract the handlers
exercise: a mutable header map holding a Content-Type entry, and a one-shot
commit of the header block at the first body write.  headerCT is the map
entry; wireCT is the Content-Type actually sent with the response, fixed
forever by the first write. -/
structure ResponseWriterState where
  headerCT : Option Str
  wireCT : Option Str
  body : Str
deriving DecidableEq

/-- A fresh writer: empty header map, nothing committed, empty body. -/
def initWriter : ResponseWriterState :=
  { headerCT := none, wireCT := none, body := [] }

/-- w.Header().Set("Content-Type", ct) — mutates only the header map; per
the net/http contract this has no effect on the wire once the header block
has been committed by a write. -/
def headerSetCT (w : ResponseWriterState) (ct : Str) : ResponseWriterState :=
  { w with headerCT := some ct }

/-- Modelled from the net/http contract: http.DetectContentType has no JSON
signature, so plain text such as a JSON object falls back to
text/plain; charset=utf-8. -/
def sniffContentType (_ : Str) : Str := str "text/plain; charset=utf-8"

/-- A body write: the first write commits the header block — the
Content-Type then present in the map or, when the map has none, the
sniffed type of the chunk; later header changes have no wire effect. -/
def writeBody (w : ResponseWriterState) (chunk : Str) : ResponseWriterState :=
  { w with
    wireCT := match w.wireCT with
      | some ct => some ct
      | none =>
        some (match w.headerCT with
          | some ct => ct
          | none => sniffContentType chunk)
    body := w.body ++ chunk }

/-- Outcome of one credentials request: a response (status, Content-Type,
body, and whether credentialsForRole was invoked on this path), or a panic.
Error returns (status, err) are rendered the way http.Error does in the
errorHandler wrapper: the message followed by a newline, as text/plain. -/
inductive CredsOutcome where
  | resp (status : Nat) (contentType : Str) (body : Str) (providerInvoked : Bool)
  | panicked
deriving DecidableEq

/-- func (s *Server) credentialsHandler — faithful to the source order:
parse the client IP (500 on failure, with the zero-value ip "" interpolated),
resolve the role for the IP (500 on lookup error, 404 on empty role), reject
an empty mux role variable (400), enforce requested == resolved (403),
then ask the provider.  On a provider error the source formats
ctx.Err().Error(); ctxErr models ctx.Err() at that moment (none while the
request context is alive), and calling Error() on a nil error is a panic.
Error returns are rendered by http.Error, which sets text/plain in the
header map before writing, so that type is committed.  On success the
source calls Encode — the first body write, committing the header block
with no Content-Type set — and only then Header().Set("Content-Type",
"application/json"): the response therefore goes out with the sniffed
type, as the writer model derives. -/
def credentialsHandler (s : Server) (findRole : Str → Except Str Str)
    (provider : Str → Except Str Credentials) (ctxErr : Option Str)
    (req : HttpRequest) : CredsOutcome :=
  match s.clientIP req with
  | .error e =>
    .resp 500 textPlain (str "error parsing client ip : " ++ e ++ str "\n") false
  | .ok ip =>
    match findRole ip with
    | .error e =>
      .resp 500 textPlain
        (str "error finding pod for ip " ++ ip ++ str ": " ++ e ++ str "\n") false
    | .ok foundRole =>
      if foundRole = [] then
        .resp 404 textPlain (EmptyRoleError ++ str "\n") false
      else if req.roleVar = [] then
        .resp 400 textPlain (str "no role specified\n") false
      else if foundRole ≠ req.roleVar then
        .resp 403 textPlain
          (str "unable to assume role " ++ req.roleVar
            ++ str ", role on pod specified is " ++ foundRole ++ str "\n") false
      else
        match provider req.roleVar with
        | .error _ =>
          match ctxErr with
          | some m => .resp 500 textPlain (str "unexpected error: " ++ m ++ str "\n") true
          | none => .panicked
        | .ok creds =>
          let w := headerSetCT (writeBody initWriter (jsonEncodeCredentials creds))
            applicationJson
          .resp 200 (w.wireCT.getD []) w.body true

/-- The router registers the bare "security-credentials/" path (empty
remainder) to the role-name handler before the "{role:.*}" credentials
route, so a request dispatched to the credentials handler always carries a
non-empty role segment. -/
def routesToCredentialsHandler (roleSegment : Str) : Bool :=
  roleSegment ≠ []

/-- var PodNotFound — the sentinel error the role-name handler retry
operation returns when no pod matches the IP. -/
def PodNotFound : Str := str "pod not found"

/-- Result of backoff.Retry: success or failure carry the elapsed time (in
milliseconds since Reset) at the moment of return; fuelOut is a model
artifact for an exhausted recursion bound and corresponds to no source
behavior reachable with enough fuel. -/
inductive RetryResult where
  | ok (role : Str) (elapsed : Nat)
  | failed (e : Str) (elapsed : Nat)
  | fuelOut
deriving DecidableEq

/-- backoff.Retry with an ExponentialBackOff whose MaxElapsedTime is
maxElapsed: run the operation; on success stop; on failure stop with that
error once the elapsed time exceeds MaxElapsedTime (NextBackOff returns
Stop), otherwise sleep and try again.  The randomized, exponentially
growing sleep intervals are abstracted as the sequence ivs, and the
operation is indexed by the attempt number so that results may change as
the underlying cache fills. -/
def retryBackoff (op : Nat → Except Str Str) (ivs : Nat → Nat) (maxElapsed : Nat) :
    Nat → Nat → Nat → RetryResult
  | 0, attempt, elapsed =>
    match op attempt with
    | .ok r => .ok r elapsed
    | .error e => if maxElapsed < elapsed then .failed e elapsed else .fuelOut
  | fuel + 1, attempt, elapsed =>
    match op attempt with
    | .ok r => .ok r elapsed
    | .error e =>
      if maxElapsed < elapsed then .failed e elapsed
      else retryBackoff op ivs maxElapsed fuel (attempt + 1) (elapsed + ivs attempt)

/-- The retried operation inside roleNameHandler: call FindRoleFromIP;
propagate lookup errors; report PodNotFound when the role resolves empty. -/
def roleOp (finder : Nat → Except Str Str) (attempt : Nat) : Except Str Str :=
  match finder attempt with
  | .error e => .error e
  | .ok role => if role = [] then .error PodNotFound else .ok role

/-- Outcome of one role-name request: a response (status and body, rendered
through http.Error for errors), or the fuel artifact. -/
inductive RoleNameOutcome where
  | resp (status : Nat) (body : Str)
  | diverged
deriving DecidableEq

/-- func (s *Server) roleNameHandler — parse the client IP (500 on failure),
then race the retried role resolution against the request context: when the
context fires first the handler returns 500 with the context error
(ctxDone/ctxErrMsg model that branch of the select); otherwise PodNotFound
maps to 404 "pod not found for ip", other retry errors to 500, an empty
resolved role to 404, and success writes the role as the 200 body. -/
def roleNameHandler (s : Server) (finder : Nat → Except Str Str) (ivs : Nat → Nat)
    (fuel : Nat) (ctxDone : Bool) (ctxErrMsg : Str) (req : HttpRequest) :
    RoleNameOutcome :=
  match s.clientIP req with
  | .error e => .resp 500 (str "error parsing ip: " ++ e ++ str "\n")
  | .ok ip =>
    if ctxDone then .resp 500 (ctxErrMsg ++ str "\n")
    else
      match retryBackoff (roleOp finder) ivs s.cfg.maxElapsedTime fuel 0 0 with
      | .failed e _ =>
        if e = PodNotFound then
          .resp 404 (str "pod not found for ip " ++ ip ++ str "\n")
        else .resp 500 (str "error finding pod: " ++ e ++ str "\n")
      | .ok role _ =>
        if role = [] then .resp 404 (str "no role for pod " ++ ip ++ str "\n")
        else .resp 200 role
      | .fuelOut => .diverged

/-- A pod as GetPodRole needs it.  Modelled from the spec: package k8s is
not under src/; PodRole extracts the role name annotated on the pod under
the well-known annotation key, so the pod model carries that annotation. -/
structure Pod where
  annotatedRole : Str
deriving DecidableEq

/-- Modelled from the spec: k8s.PodRole(pod) returns the annotated role
name (empty when the annotation is absent). -/
def PodRole (p : Pod) : Str := p.annotatedRole

/-- var PodNotFoundError — the server-side sentinel for a missing pod. -/
def PodNotFoundError : Str := str "pod not found"

/-- Result of the GetPodRole RPC. -/
inductive PodRoleResult where
  | role (name : Str)
  | err (e : Str)
deriving DecidableEq

namespace KiamServer

/-- func (k *KiamServer) GetPodRole — one call to the pod cache:
FindPodForIP(ip); propagate a lookup error; return PodNotFoundError when no
pod is found; otherwise return the annotated role.  The cache lookup is
abstracted as a function of the attempt index so that a later-known pod is
expressible; the source consults only attempt 0 — it contains no retry
loop. -/
def GetPodRole (findPodForIP : Nat → Except Str (Option Pod)) : PodRoleResult :=
  match findPodForIP 0 with
  | .error e => .err e
  | .ok none => .err PodNotFoundError
  | .ok (some pod) => .role (PodRole pod)

end KiamServer

/-- The single-lookup semantics GetPodRole actually has: its result is a
function of the first (and only) cache lookup. -/
def podRoleOfFirstLookup (first : Except Str (Option Pod)) : PodRoleResult :=
  match first with
  | .error e => .err e
  | .ok none => .err PodNotFoundError
  | .ok (some pod) => .role (PodRole pod)

/-- Modelled from the spec: the per-role slot of the credential cache
(section 4.2) — sts.DefaultCache is not under src/, only its caller
KiamServer.GetRoleCredentials is.  A slot is empty, holds an in-flight
issuance, or holds the issued record. -/
inductive Slot where
  | empty
  | issuing
  | filled (c : Credentials)
deriving DecidableEq

/-- Modelled from the spec: the phase of one caller of
CredentialsForRole — not yet at the slot, elected issuer, attached to the
in-flight promise, or finished with the record it received. -/
inductive CallerPhase where
  | start
  | issuer
  | waiting
  | got (c : Credentials)
deriving DecidableEq

/-- State of the cache for one role together with n concurrent callers and
a count of STS gateway invocations. -/
structure CacheState (n : Nat) where
  slot : Slot
  stsCalls : Nat
  phase : Fin n → CallerPhase

/-- Pointwise update of the caller-phase table. -/
def updPhase {n : Nat} (f : Fin n → CallerPhase) (i : Fin n) (v : CallerPhase) :
    Fin n → CallerPhase :=
  fun j => if j = i then v else f j

/-- Modelled from the spec: one atomic step of caller i against the slot.
The lookup-and-promote is atomic (the slot sits behind the cache mutex): a
caller finding the slot empty promotes it to issuing and becomes the
issuer; one finding it issuing attaches as a waiter; one finding it filled
takes the record.  The issuer then invokes the STS gateway (sts gives the
record returned by the k-th invocation), fills the slot and completes.  A
waiter completes once the slot is filled and otherwise stays blocked. -/
def step {n : Nat} (sts : Nat → Credentials) (σ : CacheState n) (i : Fin n) :
    CacheState n :=
  match σ.phase i with
  | .start =>
    match σ.slot with
    | .empty => { σ with slot := .issuing, phase := updPhase σ.phase i .issuer }
    | .issuing => { σ with phase := updPhase σ.phase i .waiting }
    | .filled c => { σ with phase := updPhase σ.phase i (.got c) }
  | .issuer =>
    { slot := .filled (sts σ.stsCalls), stsCalls := σ.stsCalls + 1,
      phase := updPhase σ.phase i (.got (sts σ.stsCalls)) }
  | .waiting =>
    match σ.slot with
    | .filled c => { σ with phase := updPhase σ.phase i (.got c) }
    | _ => σ
  | .got _ => σ

/-- Run an arbitrary interleaving of caller steps. -/
def runSched {n : Nat} (sts : Nat → Credentials) : List (Fin n) → CacheState n → CacheState n
  | [], σ => σ
  | i :: rest, σ => runSched sts rest (step sts σ i)

/-- The cold cache: empty slot, no STS calls, every caller at start. -/
def initState (n : Nat) : CacheState n :=
  { slot := .empty, stsCalls := 0, phase := fun _ => .start }

/-- Invariant of the single-flight protocol: at most one STS call ever; an
empty slot means nothing has happened; an issuing slot means no call yet,
exactly one issuer and no completed caller; a filled slot holds the record
of the first and only call, with no issuer left; every completed caller
holds the record of the first call. -/
def CacheInv {n : Nat} (sts : Nat → Credentials) (σ : CacheState n) : Prop :=
  σ.stsCalls ≤ 1
  ∧ (σ.slot = .empty → σ.stsCalls = 0 ∧ ∀ i, σ.phase i = .start)
  ∧ (σ.slot = .issuing →
      σ.stsCalls = 0
      ∧ (∀ i, σ.phase i = .start ∨ σ.phase i = .issuer ∨ σ.phase i = .waiting)
      ∧ (∀ i j, σ.phase i = .issuer → σ.phase j = .issuer → i = j))
  ∧ (∀ c, σ.slot = .filled c → c = sts 0 ∧ σ.stsCalls = 1 ∧ ∀ i, σ.phase i ≠ .issuer)
  ∧ (∀ i c, σ.phase i = .got c → c = sts 0)

theorem cacheInv_init (n : Nat) (sts : Nat → Credentials) :
    CacheInv sts (initState n) := by
  refine ⟨by simp [initState], fun _ => ⟨rfl, fun i => rfl⟩, fun h => ?_, fun c h => ?_,
    fun i c h => ?_⟩
  · simp [initState] at h
  · simp [initState] at h
  · simp [initState] at h

theorem cacheInv_step {n : Nat} (sts : Nat → Credentials) (σ : CacheState n) (i : Fin n)
    (hInv : CacheInv sts σ) : CacheInv sts (step sts σ i) := by
  obtain ⟨hle, hempty, hissuing, hfilled, hgot⟩ := hInv
  cases hpi : σ.phase i with
  | start =>
    cases hslot : σ.slot with
    | empty =>
      obtain ⟨hc0, hall⟩ := hempty hslot
      refine ⟨by simp [step, hpi, hslot]; omega, ?_, ?_, ?_, ?_⟩
      · intro h; simp [step, hpi, hslot] at h
      · intro _
        refine ⟨by simp [step, hpi, hslot, hc0], fun j => ?_, fun j k hj hk => ?_⟩
        · by_cases hji : j = i
          · subst hji; simp [step, hpi, hslot, updPhase]
          · simp [step, hpi, hslot, updPhase, hji, hall j]
        · by_cases hji : j = i
          · by_cases hki : k = i
            · rw [hji, hki]
            · simp [step, hpi, hslot, updPhase, hki, hall k] at hk
          · simp [step, hpi, hslot, updPhase, hji, hall j] at hj
      · intro c h; simp [step, hpi, hslot] at h
      · intro j c h
        by_cases hji : j = i
        · subst hji; simp [step, hpi, hslot, updPhase] at h
        · simp [step, hpi, hslot, updPhase, hji] at h
          exact absurd h (by simp [hall j])
    | issuing =>
      obtain ⟨hc0, hph, huniq⟩ := hissuing hslot
      refine ⟨by simp [step, hpi, hslot]; omega, ?_, ?_, ?_, ?_⟩
      · intro h; simp [step, hpi, hslot] at h
      · intro _
        refine ⟨by simp [step, hpi, hslot, hc0], fun j => ?_, fun j k hj hk => ?_⟩
        · by_cases hji : j = i
          · subst hji; simp [step, hpi, hslot, updPhase]
          · simp [step, hpi, hslot, updPhase, hji]
            exact hph j
        · simp [step, hpi, hslot, updPhase] at hj hk
          by_cases hji : j = i
          · simp [hji] at hj
          · by_cases hki : k = i
            · simp [hki] at hk
            · simp [hji] at hj; simp [hki] at hk
              exact huniq j k hj hk
      · intro c h; simp [step, hpi, hslot] at h
      · intro j c h
        simp [step, hpi, hslot, updPhase] at h
        by_cases hji : j = i
        · simp [hji] at h
        · simp [hji] at h
          exact hgot j c h
    | filled c0 =>
      obtain ⟨hcs, hc1, hnoiss⟩ := hfilled c0 hslot
      refine ⟨by simp [step, hpi, hslot]; omega, ?_, ?_, ?_, ?_⟩
      · intro h; simp [step, hpi, hslot] at h
      · intro h; simp [step, hpi, hslot] at h
      · intro c h
        simp [step, hpi, hslot] at h
        refine ⟨h ▸ hcs, by simp [step, hpi, hslot, hc1], fun j => ?_⟩
        simp [step, hpi, hslot, updPhase]
        by_cases hji : j = i
        · simp [hji]
        · simp [hji]; exact hnoiss j
      · intro j c h
        simp [step, hpi, hslot, updPhase] at h
        by_cases hji : j = i
        · simp [hji] at h; exact h ▸ hcs
        · simp [hji] at h; exact hgot j c h
  | issuer =>
    have hslot : σ.slot = .issuing := by
      cases hs : σ.slot with
      | empty => exact absurd hpi (by simp [(hempty hs).2 i])
      | issuing => rfl
      | filled c => exact absurd hpi ((hfilled c hs).2.2 i)
    obtain ⟨hc0, hph, huniq⟩ := hissuing hslot
    refine ⟨by simp [step, hpi, hc0], ?_, ?_, ?_, ?_⟩
    · intro h; simp [step, hpi] at h
    · intro h; simp [step, hpi] at h
    · intro c h
      simp [step, hpi, hc0] at h ⊢
      refine ⟨h.symm, fun j => ?_⟩
      simp [updPhase]
      by_cases hji : j = i
      · simp [hji]
      · simp [hji]
        intro hj
        exact absurd (huniq j i hj hpi) hji
    · intro j c h
      simp [step, hpi, updPhase, hc0] at h
      by_cases hji : j = i
      · simp [hji] at h; exact h.symm
      · simp [hji] at h; exact hgot j c h
  | waiting =>
    cases hslot : σ.slot with
    | empty =>
      exact absurd hpi (by simp [(hempty hslot).2 i])
    | issuing =>
      have : step sts σ i = σ := by simp [step, hpi, hslot]
      rw [this]
      exact ⟨hle, hempty, hissuing, hfilled, hgot⟩
    | filled c0 =>
      obtain ⟨hcs, hc1, hnoiss⟩ := hfilled c0 hslot
      refine ⟨by simpa [step, hpi, hslot] using hle, ?_, ?_, ?_, ?_⟩
      · intro h; simp [step, hpi, hslot] at h
      · intro h; simp [step, hpi, hslot] at h
      · intro c h
        simp [step, hpi, hslot] at h
        refine ⟨h ▸ hcs, by simp [step, hpi, hslot, hc1], fun j => ?_⟩
        simp [step, hpi, hslot, updPhase]
        by_cases hji : j = i
        · simp [hji]
        · simp [hji]; exact hnoiss j
      · intro j c h
        simp [step, hpi, hslot, updPhase] at h
        by_cases hji : j = i
        · simp [hji] at h; exact h ▸ hcs
        · simp [hji] at h; exact hgot j c h
  | got c0 =>
    have : step sts σ i = σ := by simp [step, hpi]
    rw [this]
    exact ⟨hle, hempty, hissuing, hfilled, hgot⟩

theorem cacheInv_run {n : Nat} (sts : Nat → Credentials) (sched : List (Fin n)) :
    ∀ σ : CacheState n, CacheInv sts σ → CacheInv sts (runSched sts sched σ) := by
  induction sched with
  | nil => intro σ h; exact h
  | cons i rest ih =>
    intro σ h
    exact ih (step sts σ i) (cacheInv_step sts σ i h)

theorem retryBackoff_failed_late (op : Nat → Except Str Str) (ivs : Nat → Nat)
    (maxElapsed : Nat) :
    ∀ fuel attempt elapsed e t,
      retryBackoff op ivs maxElapsed fuel attempt elapsed = .failed e t →
      maxElapsed < t := by
  intro fuel
  induction fuel with
  | zero =>
    intro attempt elapsed e t h
    simp only [retryBackoff] at h
    cases hop : op attempt with
    | ok r => simp [hop] at h
    | error e0 =>
      simp only [hop] at h
      by_cases hlt : maxElapsed < elapsed
      · simp [hlt] at h
        omega
      · simp [hlt] at h
  | succ fuel ih =>
    intro attempt elapsed e t h
    simp only [retryBackoff] at h
    cases hop : op attempt with
    | ok r => simp [hop] at h
    | error e0 =>
      simp only [hop] at h
      by_cases hlt : maxElapsed < elapsed
      · simp [hlt] at h
        omega
      · simp [hlt] at h
        exact ih (attempt + 1) (elapsed + ivs attempt) e t h

theorem retryBackoff_exhausts (op : Nat → Except Str Str) (ivs : Nat → Nat)
    (maxElapsed : Nat) (pe : Str)
    (hop : ∀ k, op k = .error pe) (hiv : ∀ k, 1 ≤ ivs k) :
    ∀ fuel attempt elapsed, maxElapsed + 1 ≤ fuel + elapsed →
      ∃ t, retryBackoff op ivs maxElapsed fuel attempt elapsed = .failed pe t
        ∧ maxElapsed < t := by
  intro fuel
  induction fuel with
  | zero =>
    intro attempt elapsed hb
    refine ⟨elapsed, ?_, by omega⟩
    have hlt : maxElapsed < elapsed := by omega
    simp [retryBackoff, hop attempt, hlt]
  | succ fuel ih =>
    intro attempt elapsed hb
    by_cases hlt : maxElapsed < elapsed
    · exact ⟨elapsed, by simp [retryBackoff, hop attempt, hlt], hlt⟩
    · have hstep := hiv attempt
      obtain ⟨t, ht, hgt⟩ := ih (attempt + 1) (elapsed + ivs attempt) (by omega)
      exact ⟨t, by simp [retryBackoff, hop attempt, hlt, ht], hgt⟩

theorem isInfix_append_right {p l₂ : Str} (l₁ : Str) (h : p <:+: l₂) :
    p <:+: l₁ ++ l₂ := by
  obtain ⟨u, v, huv⟩ := h
  exact ⟨l₁ ++ u, v, by rw [← huv]; simp⟩

theorem isInfix_append_left {p l₁ : Str} (l₂ : Str) (h : p <:+: l₁) :
    p <:+: l₁ ++ l₂ := by
  obtain ⟨u, v, huv⟩ := h
  exact ⟨u, v ++ l₂, by rw [← huv]; simp⟩

theorem keyChunk_of_jfield (name val : Str) :
    ('"' :: name ++ str "\":") <:+: jfield name val :=
  ⟨[], '"' :: escJson val ++ ['"'], by simp [jfield]⟩

theorem jfield_code_present (c : Credentials) :
    jfield (str "Code") c.code <:+: jsonEncodeCredentials c := by
  refine ⟨str "\x7b",
    str "," ++ jfield (str "Type") c.credType ++ str ","
      ++ jfield (str "AccessKeyId") c.accessKeyId ++ str ","
      ++ jfield (str "SecretAccessKey") c.secretAccessKey ++ str ","
      ++ jfield (str "Token") c.credToken ++ str ","
      ++ jfield (str "Expiration") c.expiration ++ str ","
      ++ jfield (str "LastUpdated") c.lastUpdated ++ str "\x7d\n", ?_⟩
  simp [jsonEncodeCredentials, List.append_assoc]

theorem jfield_type_present (c : Credentials) :
    jfield (str "Type") c.credType <:+: jsonEncodeCredentials c := by
  refine ⟨str "\x7b" ++ jfield (str "Code") c.code ++ str ",",
    str "," ++ jfield (str "AccessKeyId") c.accessKeyId ++ str ","
      ++ jfield (str "SecretAccessKey") c.secretAccessKey ++ str ","
      ++ jfield (str "Token") c.credToken ++ str ","
      ++ jfield (str "Expiration") c.expiration ++ str ","
      ++ jfield (str "LastUpdated") c.lastUpdated ++ str "\x7d\n", ?_⟩
  simp [jsonEncodeCredentials, List.append_assoc]

theorem jfield_accessKeyId_present (c : Credentials) :
    jfield (str "AccessKeyId") c.accessKeyId <:+: jsonEncodeCredentials c := by
  refine ⟨str "\x7b" ++ jfield (str "Code") c.code ++ str ","
      ++ jfield (str "Type") c.credType ++ str ",",
    str "," ++ jfield (str "SecretAccessKey") c.secretAccessKey ++ str ","
      ++ jfield (str "Token") c.credToken ++ str ","
      ++ jfield (str "Expiration") c.expiration ++ str ","
      ++ jfield (str "LastUpdated") c.lastUpdated ++ str "\x7d\n", ?_⟩
  simp [jsonEncodeCredentials, List.append_assoc]

theorem jfield_secretAccessKey_present (c : Credentials) :
    jfield (str "SecretAccessKey") c.secretAccessKey <:+: jsonEncodeCredentials c := by
  refine ⟨str "\x7b" ++ jfield (str "Code") c.code ++ str ","
      ++ jfield (str "Type") c.credType ++ str ","
      ++ jfield (str "AccessKeyId") c.accessKeyId ++ str ",",
    str "," ++ jfield (str "Token") c.credToken ++ str ","
      ++ jfield (str "Expiration") c.expiration ++ str ","
      ++ jfield (str "LastUpdated") c.lastUpdated ++ str "\x7d\n", ?_⟩
  simp [jsonEncodeCredentials, List.append_assoc]

theorem jfield_token_present (c : Credentials) :
    jfield (str "Token") c.credToken <:+: jsonEncodeCredentials c := by
  refine ⟨str "\x7b" ++ jfield (str "Code") c.code ++ str ","
      ++ jfield (str "Type") c.credType ++ str ","
      ++ jfield (str "AccessKeyId") c.accessKeyId ++ str ","
      ++ jfield (str "SecretAccessKey") c.secretAccessKey ++ str ",",
    str "," ++ jfield (str "Expiration") c.expiration ++ str ","
      ++ jfield (str "LastUpdated") c.lastUpdated ++ str "\x7d\n", ?_⟩
  simp [jsonEncodeCredentials, List.append_assoc]

theorem jfield_expiration_present (c : Credentials) :
    jfield (str "Expiration") c.expiration <:+: jsonEncodeCredentials c := by
  refine ⟨str "\x7b" ++ jfield (str "Code") c.code ++ str ","
      ++ jfield (str "Type") c.credType ++ str ","
      ++ jfield (str "AccessKeyId") c.accessKeyId ++ str ","
      ++ jfield (str "SecretAccessKey") c.secretAccessKey ++ str ","
      ++ jfield (str "Token") c.credToken ++ str ",",
    str "," ++ jfield (str "LastUpdated") c.lastUpdated ++ str "\x7d\n", ?_⟩
  simp [jsonEncodeCredentials, List.append_assoc]

theorem jfield_lastUpdated_present (c : Credentials) :
    jfield (str "LastUpdated") c.lastUpdated <:+: jsonEncodeCredentials c := by
  refine ⟨str "\x7b" ++ jfield (str "Code") c.code ++ str ","
      ++ jfield (str "Type") c.credType ++ str ","
      ++ jfield (str "AccessKeyId") c.accessKeyId ++ str ","
      ++ jfield (str "SecretAccessKey") c.secretAccessKey ++ str ","
      ++ jfield (str "Token") c.credToken ++ str ","
      ++ jfield (str "Expiration") c.expiration ++ str ",",
    str "\x7d\n", ?_⟩
  simp [jsonEncodeCredentials, List.append_assoc]

/-- The encoder reproduces, byte for byte, the JSON the repository test
TestReturnsErrorWithoutRole expects for the zero-valued credential record
(plus the newline Encode appends). -/
theorem jsonEncodeCredentials_test_vector :
    jsonEncodeCredentials ⟨[], [], [], [], [], [], []⟩ =
      str "\x7b\"Code\":\"\",\"Type\":\"\",\"AccessKeyId\":\"\",\"SecretAccessKey\":\"\",\"Token\":\"\",\"Expiration\":\"\",\"LastUpdated\":\"\"\x7d\n" := by
  rfl

/-- A sample credential record used to instantiate witnesses. -/
def sampleCred : Credentials :=
  { code := str "Success"
    credType := str "AWS-HMAC"
    accessKeyId := str "AKIAEXAMPLE"
    secretAccessKey := str "wJalrEXAMPLE"
    credToken := str "tokenEXAMPLE"
    expiration := str "2017-12-31T23:59:59Z"
    lastUpdated := str "2017-12-31T23:44:59Z" }

/-- C1: whenever the role annotated on the calling pod resolves to a
non-empty name that differs from the role segment of the URL path (requests
reaching the credentials handler carry a non-empty segment, per the route
registration order), the handler answers 403 Forbidden with a body
containing "unable to assume role " followed by the requested role, and
the credentials provider is not invoked — whatever result the provider
would have produced. -/
theorem C1_role_mismatch_forbidden (s : Server) (findRole : Str → Except Str Str)
    (provider : Str → Except Str Credentials) (ctxErr : Option Str)
    (req : HttpRequest) (ip foundRole : Str)
    (hip : s.clientIP req = .ok ip)
    (hrole : findRole ip = .ok foundRole)
    (hne : foundRole ≠ [])
    (hroute : routesToCredentialsHandler req.roleVar = true)
    (hmismatch : foundRole ≠ req.roleVar) :
    credentialsHandler s findRole provider ctxErr req
      = .resp 403 textPlain
          (str "unable to assume role " ++ req.roleVar
            ++ str ", role on pod specified is " ++ foundRole ++ str "\n") false
    ∧ (str "unable to assume role " ++ req.roleVar)
        <:+: (str "unable to assume role " ++ req.roleVar
          ++ str ", role on pod specified is " ++ foundRole ++ str "\n") := by
  have hv : ¬ req.roleVar = [] := by
    simpa [routesToCredentialsHandler] using hroute
  refine ⟨?_, ⟨[], str ", role on pod specified is " ++ foundRole ++ str "\n",
    by simp [List.append_assoc]⟩⟩
  simp [credentialsHandler, hip, hrole, hne, hv, hmismatch]

/-- C1 witness: the pod annotated "reader" asking for "admin" is refused
with 403 and the "unable to assume role admin" body even though the
provider would have succeeded, and the provider is not called. -/
theorem C1_witness :
    credentialsHandler ⟨NewConfig 3001⟩ (fun _ => .ok (str "reader"))
        (fun _ => .ok sampleCred) none ⟨str "10.0.0.5:40000", [], str "admin"⟩
      = .resp 403 textPlain
          (str "unable to assume role admin, role on pod specified is reader\n") false
    ∧ (str "unable to assume role admin")
        <:+: (str "unable to assume role admin, role on pod specified is reader\n") := by
  have h := C1_role_mismatch_forbidden ⟨NewConfig 3001⟩ (fun _ => .ok (str "reader"))
    (fun _ => .ok sampleCred) none ⟨str "10.0.0.5:40000", [], str "admin"⟩
    (str "10.0.0.5") (str "reader") (by rfl) (by rfl) (by decide) (by rfl) (by decide)
  exact ⟨h.1, h.2⟩

/-- C2: when the source IP never resolves to a pod, the role-name handler
keeps retrying under the backoff loop and, once more than MaxElapsedTime of
backoff has elapsed, answers 404 with body "pod not found for ip " ++ ip;
moreover the retry loop reports failure only at an elapsed time strictly
beyond MaxElapsedTime — never earlier — and the configured default budget
is 10 seconds.  The request context is assumed not to fire (ctxDone =
false), the interval sequence is arbitrary but positive, and enough fuel is
supplied for the model recursion. -/
theorem C2_unknown_ip_not_found (s : Server) (finder : Nat → Except Str Str)
    (ivs : Nat → Nat) (fuel : Nat) (ctxErrMsg : Str) (req : HttpRequest) (ip : Str)
    (hip : s.clientIP req = .ok ip)
    (hnopod : ∀ k, finder k = .ok [])
    (hiv : ∀ k, 1 ≤ ivs k)
    (hfuel : s.cfg.maxElapsedTime + 1 ≤ fuel) :
    roleNameHandler s finder ivs fuel false ctxErrMsg req
      = .resp 404 (str "pod not found for ip " ++ ip ++ str "\n")
    ∧ (∀ op2 ivs2 me fuel2 a el e t,
        retryBackoff op2 ivs2 me fuel2 a el = .failed e t → me < t)
    ∧ (∀ p, (NewConfig p).maxElapsedTime = 10000) := by
  refine ⟨?_, fun op2 ivs2 me fuel2 a el e t h =>
    retryBackoff_failed_late op2 ivs2 me fuel2 a el e t h, fun p => rfl⟩
  have hop : ∀ k, roleOp finder k = .error PodNotFound := by
    intro k
    simp [roleOp, hnopod k]
  obtain ⟨t, hret, _⟩ := retryBackoff_exhausts (roleOp finder) ivs
    s.cfg.maxElapsedTime PodNotFound hop hiv fuel 0 0 (by omega)
  simp [roleNameHandler, hip, hret]

/-- C2 witness: with the default 10 s budget, one-second backoff steps and
an IP no pod ever matches, the handler returns 404 with the expected body. -/
theorem C2_witness :
    roleNameHandler ⟨NewConfig 3001⟩ (fun _ => .ok []) (fun _ => 1000) 10001 false []
        ⟨str "10.0.0.99:4321", [], []⟩
      = .resp 404 (str "pod not found for ip 10.0.0.99\n") := by
  have h := C2_unknown_ip_not_found ⟨NewConfig 3001⟩ (fun _ => .ok [])
    (fun _ => 1000) 10001 [] ⟨str "10.0.0.99:4321", [], []⟩ (str "10.0.0.99")
    (by rfl) (fun k => rfl) (fun k => show (1 : Nat) ≤ 1000 by decide) (by decide)
  exact h.1

/-- C3 counterexample: a pod unknown to the cache on the first lookup but
known from the next instant on is reported not-found by
KiamServer.GetPodRole — the operation performs no retry, so the claimed
backoff-and-retry behavior is absent from this code. -/
theorem C3_counterexample :
    KiamServer.GetPodRole
        (fun k => if k = 0 then .ok none else .ok (some ⟨str "reader"⟩))
      = .err PodNotFoundError
    ∧ KiamServer.GetPodRole
        (fun k => if k = 0 then .ok none else .ok (some ⟨str "reader"⟩))
      ≠ .role (str "reader") := by
  exact ⟨rfl, by decide⟩

/-- C3 (amended): KiamServer.GetPodRole performs exactly one FindPodForIP
lookup — its result is a function of the first lookup alone — and returns
PodNotFoundError on the first miss; the retry bounded by MaxElapsedTime
lives in the agent role-name handler instead. -/
theorem C3_single_lookup (f : Nat → Except Str (Option Pod)) :
    KiamServer.GetPodRole f = podRoleOfFirstLookup (f 0)
    ∧ (f 0 = .ok none → KiamServer.GetPodRole f = .err PodNotFoundError) := by
  constructor
  · rfl
  · intro h
    simp [KiamServer.GetPodRole, h]

/-- C3 witness: at a finder whose first lookup misses, GetPodRole equals
the single-lookup semantics and reports PodNotFoundError. -/
theorem C3_witness :
    KiamServer.GetPodRole (fun _ => (.ok none : Except Str (Option Pod)))
      = podRoleOfFirstLookup (.ok none)
    ∧ KiamServer.GetPodRole (fun _ => (.ok none : Except Str (Option Pod)))
      = .err PodNotFoundError :=
  ⟨(C3_single_lookup (fun _ => .ok none)).1,
    (C3_single_lookup (fun _ => .ok none)).2 rfl⟩

/-- C4: in the single-flight credential cache (modelled from the spec,
section 4.2, since sts.DefaultCache is not under src/), any interleaving of
any number of concurrent CredentialsForRole callers starting from the cold
cache makes at most one STS call, and any two callers that complete receive
the same credential record — in particular the same AccessKeyId. -/
theorem C4_single_flight {n : Nat} (sts : Nat → Credentials) (sched : List (Fin n))
    (i j : Fin n) (ci cj : Credentials)
    (hi : (runSched sts sched (initState n)).phase i = .got ci)
    (hj : (runSched sts sched (initState n)).phase j = .got cj) :
    (runSched sts sched (initState n)).stsCalls ≤ 1
    ∧ ci = cj
    ∧ ci.accessKeyId = cj.accessKeyId := by
  obtain ⟨hle, _, _, _, hgot⟩ :=
    cacheInv_run sts sched (initState n) (cacheInv_init n sts)
  have hci := hgot i ci hi
  have hcj := hgot j cj hj
  have hij : ci = cj := hci.trans hcj.symm
  exact ⟨hle, hij, by rw [hij]⟩

/-- C4 witness: two concrete callers — the first becomes the issuer and
completes, the second then reads the filled slot — make exactly at most
one STS call and end with identical records. -/
theorem C4_witness :
    (runSched (fun _ => sampleCred) [(0 : Fin 2), 0, 1] (initState 2)).stsCalls ≤ 1
    ∧ sampleCred = sampleCred
    ∧ sampleCred.accessKeyId = sampleCred.accessKeyId :=
  C4_single_flight (fun _ => sampleCred) [(0 : Fin 2), 0, 1] 0 1
    sampleCred sampleCred (by decide) (by decide)

/-- C5: the code slip behind this claim — with the annotated role equal to
the requested role and the provider failing while the request context is
still alive (so ctx.Err() is nil), the source formats ctx.Err().Error(),
a nil-interface method call: the handler panics instead of returning the
500 text response the spec describes. -/
theorem C5_provider_error_panics :
    credentialsHandler ⟨NewConfig 3001⟩ (fun _ => .ok (str "reader"))
        (fun _ => .error (str "AccessDenied")) none
        ⟨str "10.0.0.5:40000", [], str "reader"⟩
      = .panicked := by
  rfl

/-- On every success path the committed Content-Type is the sniffed
text/plain: the first write happens with an empty header map, so the late
Header().Set of application/json never reaches the wire. -/
theorem successContentTypeSniffed (creds : Credentials) :
    (headerSetCT (writeBody initWriter (jsonEncodeCredentials creds))
        applicationJson).wireCT = some textPlain := by
  rfl

/-- C6: the code slip behind this claim — on the success path the source
calls json.NewEncoder(w).Encode (the first body write, which commits the
header block with no Content-Type set) and only afterwards
w.Header().Set("Content-Type", "application/json"); per the net/http
contract the late Set mutates only the header map, so the 200 response is
sent with the sniffed text/plain type, not application/json as the claim
(and the repository test, which observes the recorder map rather than the
wire) expects.  The JSON body with the seven field keys is produced as
claimed. -/
theorem C6_content_type_not_sent :
    credentialsHandler ⟨NewConfig 3001⟩ (fun _ => .ok (str "reader"))
        (fun _ => .ok sampleCred) none ⟨str "10.0.0.5:40000", [], str "reader"⟩
      = .resp 200 textPlain (jsonEncodeCredentials sampleCred) true
    ∧ textPlain ≠ applicationJson
    ∧ (headerSetCT (writeBody initWriter (jsonEncodeCredentials sampleCred))
        applicationJson).headerCT = some applicationJson
    ∧ (headerSetCT (writeBody initWriter (jsonEncodeCredentials sampleCred))
        applicationJson).wireCT = some textPlain
    ∧ str "\"Code\":" <:+: jsonEncodeCredentials sampleCred
    ∧ str "\"Type\":" <:+: jsonEncodeCredentials sampleCred
    ∧ str "\"AccessKeyId\":" <:+: jsonEncodeCredentials sampleCred
    ∧ str "\"SecretAccessKey\":" <:+: jsonEncodeCredentials sampleCred
    ∧ str "\"Token\":" <:+: jsonEncodeCredentials sampleCred
    ∧ str "\"Expiration\":" <:+: jsonEncodeCredentials sampleCred
    ∧ str "\"LastUpdated\":" <:+: jsonEncodeCredentials sampleCred := by
  refine ⟨by rfl, by decide, by rfl, by rfl,
    (keyChunk_of_jfield (str "Code") sampleCred.code).trans
      (jfield_code_present sampleCred),
    (keyChunk_of_jfield (str "Type") sampleCred.credType).trans
      (jfield_type_present sampleCred),
    (keyChunk_of_jfield (str "AccessKeyId") sampleCred.accessKeyId).trans
      (jfield_accessKeyId_present sampleCred),
    (keyChunk_of_jfield (str "SecretAccessKey") sampleCred.secretAccessKey).trans
      (jfield_secretAccessKey_present sampleCred),
    (keyChunk_of_jfield (str "Token") sampleCred.credToken).trans
      (jfield_token_present sampleCred),
    (keyChunk_of_jfield (str "Expiration") sampleCred.expiration).trans
      (jfield_expiration_present sampleCred),
    (keyChunk_of_jfield (str "LastUpdated") sampleCred.lastUpdated).trans
      (jfield_lastUpdated_present sampleCred)⟩

/-- C7: a request whose IP resolves to a pod without a role annotation
(the resolution yields the empty role name) is answered 404 NotFound — in
particular not 403 Forbidden — before the requested role is even read,
and without invoking the provider. -/
theorem C7_empty_role_not_found (s : Server) (findRole : Str → Except Str Str)
    (provider : Str → Except Str Credentials) (ctxErr : Option Str)
    (req : HttpRequest) (ip : Str)
    (hip : s.clientIP req = .ok ip)
    (hrole : findRole ip = .ok []) :
    credentialsHandler s findRole provider ctxErr req
      = .resp 404 textPlain (EmptyRoleError ++ str "\n") false
    ∧ ∀ ct body pi, credentialsHandler s findRole provider ctxErr req
        ≠ .resp 403 ct body pi := by
  have h : credentialsHandler s findRole provider ctxErr req
      = .resp 404 textPlain (EmptyRoleError ++ str "\n") false := by
    simp [credentialsHandler, hip, hrole]
  refine ⟨h, fun ct body pi hcontra => ?_⟩
  rw [h] at hcontra
  simp at hcontra

/-- C7 witness: the pod with an empty role annotation gets 404, and in
particular no 403 with any body. -/
theorem C7_witness :
    credentialsHandler ⟨NewConfig 3001⟩ (fun _ => .ok [])
        (fun _ => .ok sampleCred) none ⟨str "10.0.0.5:40000", [], str "reader"⟩
      = .resp 404 textPlain (EmptyRoleError ++ str "\n") false
    ∧ credentialsHandler ⟨NewConfig 3001⟩ (fun _ => .ok [])
        (fun _ => .ok sampleCred) none ⟨str "10.0.0.5:40000", [], str "reader"⟩
      ≠ .resp 403 textPlain (EmptyRoleError ++ str "\n") false := by
  have h := C7_empty_role_not_found ⟨NewConfig 3001⟩ (fun _ => .ok [])
    (fun _ => .ok sampleCred) none ⟨str "10.0.0.5:40000", [], str "reader"⟩
    (str "10.0.0.5") (by rfl) (by rfl)
  exact ⟨h.1, h.2 textPlain (EmptyRoleError ++ str "\n") false⟩

/-- C8: a RemoteAddr without any colon fails client-IP parsing and both
handlers answer 500 with the parse-error message (the credentials handler
interpolates the zero-value ip before the colon); any RemoteAddr containing
a colon parses successfully, so no 500 can arise from IP derivation. -/
theorem C8_remoteaddr_parse (s : Server) (findRole : Str → Except Str Str)
    (provider : Str → Except Str Credentials) (ctxErr : Option Str)
    (finder : Nat → Except Str Str) (ivs : Nat → Nat) (fuel : Nat)
    (ctxDone : Bool) (ctxErrMsg : Str) (req : HttpRequest) :
    (':' ∉ req.remoteAddr →
      credentialsHandler s findRole provider ctxErr req
        = .resp 500 textPlain
            (str "error parsing client ip : "
              ++ (str "incorrect format, expected ip:port, was: " ++ req.remoteAddr)
              ++ str "\n") false)
    ∧ (':' ∉ req.remoteAddr →
      roleNameHandler s finder ivs fuel ctxDone ctxErrMsg req
        = .resp 500
            (str "error parsing ip: "
              ++ (str "incorrect format, expected ip:port, was: " ++ req.remoteAddr)
              ++ str "\n"))
    ∧ (':' ∈ req.remoteAddr → ∃ ip, s.clientIP req = .ok ip) := by
  refine ⟨fun h => ?_, fun h => ?_, fun h => ?_⟩
  · have he := ParseClientIP_error h
    simp [credentialsHandler, Server.clientIP, he]
  · have he := ParseClientIP_error h
    simp [roleNameHandler, Server.clientIP, he]
  · obtain ⟨u, v, huv, hnv⟩ := last_colon_split h
    exact ⟨u, by simp [Server.clientIP, huv, ParseClientIP_ok u hnv]⟩

/-- C8 witness: "10.0.0.5" (no port) draws the 500 parse error from both
handlers, while "10.0.0.5:40000" parses. -/
theorem C8_witness :
    credentialsHandler ⟨NewConfig 3001⟩ (fun _ => .ok (str "reader"))
        (fun _ => .ok sampleCred) none ⟨str "10.0.0.5", [], str "reader"⟩
      = .resp 500 textPlain
          (str "error parsing client ip : "
            ++ (str "incorrect format, expected ip:port, was: " ++ str "10.0.0.5")
            ++ str "\n") false
    ∧ roleNameHandler ⟨NewConfig 3001⟩ (fun _ => .ok (str "reader")) (fun _ => 1000)
        10001 false [] ⟨str "10.0.0.5", [], []⟩
      = .resp 500
          (str "error parsing ip: "
            ++ (str "incorrect format, expected ip:port, was: " ++ str "10.0.0.5")
            ++ str "\n")
    ∧ ∃ ip, Server.clientIP ⟨NewConfig 3001⟩ ⟨str "10.0.0.5:40000", [], []⟩ = .ok ip := by
  refine ⟨?_, ?_, ?_⟩
  · exact (C8_remoteaddr_parse ⟨NewConfig 3001⟩ (fun _ => .ok (str "reader"))
      (fun _ => .ok sampleCred) none (fun _ => .ok (str "reader")) (fun _ => 1000)
      10001 false [] ⟨str "10.0.0.5", [], str "reader"⟩).1 (by decide)
  · exact (C8_remoteaddr_parse ⟨NewConfig 3001⟩ (fun _ => .ok (str "reader"))
      (fun _ => .ok sampleCred) none (fun _ => .ok (str "reader")) (fun _ => 1000)
      10001 false [] ⟨str "10.0.0.5", [], []⟩).2.1 (by decide)
  · exact (C8_remoteaddr_parse ⟨NewConfig 3001⟩ (fun _ => .ok (str "reader"))
      (fun _ => .ok sampleCred) none (fun _ => .ok (str "reader")) (fun _ => 1000)
      10001 false [] ⟨str "10.0.0.5:40000", [], []⟩).2.2 (by decide)

/-- C9: the divergence behind this claim, evaluated — with AllowIPQuery set
and a non-empty ip query parameter, buildClientIP honors the override and
returns the parameter, but Server.clientIP (the helper the src handlers
call, whose AllowIPQuery branch is empty) ignores it and derives the IP
from RemoteAddr, so the override is not honored uniformly on every handler
path. -/
theorem C9_ip_query_divergence :
    Server.clientIP ⟨{ NewConfig 3001 with allowIPQuery := true }⟩
        ⟨str "192.168.0.1:4000", str "10.0.0.5", []⟩
      = .ok (str "192.168.0.1")
    ∧ buildClientIP { NewConfig 3001 with allowIPQuery := true }
        ⟨str "192.168.0.1:4000", str "10.0.0.5", []⟩
      = .ok (str "10.0.0.5") := by
  exact ⟨rfl, rfl⟩

/-- C10: ParseClientIP fails exactly on addresses without a colon (with the
"incorrect format" message), and on any address with a colon it returns,
without error, the prefix up to the last colon, interior colons preserved:
"a:b:c:80" gives "a:b:c", "[::1]:80" gives "[::1]" and ":80" gives the
empty string. -/
theorem C10_parse_client_ip_spec :
    (∀ addr : Str, (∃ e, ParseClientIP addr = .error e) ↔ ':' ∉ addr)
    ∧ (∀ s t : Str, ':' ∉ t → ParseClientIP (s ++ ':' :: t) = .ok s)
    ∧ ParseClientIP (str "a:b:c:80") = .ok (str "a:b:c")
    ∧ ParseClientIP (str "[::1]:80") = .ok (str "[::1]")
    ∧ ParseClientIP (str ":80") = .ok [] := by
  refine ⟨fun addr => ⟨?_, fun h => ⟨_, ParseClientIP_error h⟩⟩,
    fun s t h => ParseClientIP_ok s h, by rfl, by rfl, by rfl⟩
  rintro ⟨e, he⟩ hc
  obtain ⟨u, v, huv, hnv⟩ := last_colon_split hc
  rw [huv, ParseClientIP_ok u hnv] at he
  simp at he

/-- C10 witness: a colon-free address produces an error, and the prefix law
applied at "a:b:c" and "80" reproduces the example. -/
theorem C10_witness :
    (∃ e, ParseClientIP (str "localhost") = .error e)
    ∧ ParseClientIP (str "a:b:c" ++ ':' :: str "80") = .ok (str "a:b:c") :=
  ⟨(C10_parse_client_ip_spec.1 (str "localhost")).mpr (by decide),
    C10_parse_client_ip_spec.2.1 (str "a:b:c") (str "80") (by decide)⟩

end Kiam
